import Mathlib

/-!
Shallow embedding of the da-cloud-commondatabase worker (a JSON-over-HTTP
gateway translating declarative actions into parameterized SQL against a
Cloudflare D1 store).  Two variants of the request handler exist in the
repository: the one in `src/index.js` (namespace `Core` below) and the
fuller one embedded in `usage.md` (namespace `Rack` below), which adds
`exec`, `create_table`, `list_tables`, `batch_post`, `drop_table`,
`create_index`, `list_indices` and `drop_index` and whose column whitelist
additionally contains `id`.

JavaScript payload values are modelled by `JsVal`; a payload object is an
association list of key/value pairs (first binding wins, mirroring object
property lookup).  The store adapter is an oracle (`Store`): each database
round trip is recorded in an event trace (`Event`) so that "no call reaches
the store" and "logged before executed" are provable statements.
-/

/-- JavaScript values, restricted to the fragment the handlers inspect.
`vFloat` is a number that is not an integer (carrying its decimal printing);
`vArrObj` is an array of record objects (as used by `batch_post`'s `data`);
`vArrVal` is an array of scalars (as used by `exec`'s `params`). -/
inductive JsVal where
  | vStr : String → JsVal
  | vInt : Int → JsVal
  | vFloat : String → JsVal
  | vBool : Bool → JsVal
  | vNull : JsVal
  | vUndef : JsVal
  | vArrObj : List (List (String × JsVal)) → JsVal
  | vArrVal : List JsVal → JsVal

/-- A JavaScript object: association list of properties, first binding wins. -/
abbrev Payload := List (String × JsVal)

/-- Property lookup on an object; an absent property is `none`. -/
def jsLookup : Payload → String → Option JsVal
  | [], _ => none
  | (k, v) :: rest, key => if k == key then some v else jsLookup rest key

/-- `payload.k` in JavaScript: an absent property reads as `undefined`. -/
def jsGet (p : Payload) (k : String) : JsVal :=
  (jsLookup p k).getD JsVal.vUndef

/-- JavaScript truthiness of the modelled values. -/
def jsTruthy : JsVal → Bool
  | .vStr s => !(s == "")
  | .vInt n => !(n == 0)
  | .vFloat _ => true
  | .vBool b => b
  | .vNull => false
  | .vUndef => false
  | .vArrObj _ => true
  | .vArrVal _ => true

/-- `v !== undefined`. -/
def jsDefined : JsVal → Bool
  | .vUndef => false
  | _ => true

/-- `v != null` (loose): neither `null` nor `undefined`. -/
def jsNonNullish : JsVal → Bool
  | .vNull => false
  | .vUndef => false
  | _ => true

/-- Strict equality of a value against a string literal (`v === "s"`). -/
def jsIsStrEq (v : JsVal) (s : String) : Bool :=
  match v with
  | .vStr t => t == s
  | _ => false

/-- JavaScript template-literal stringification of the modelled values
(array stringification is abstracted). -/
def jsToString : JsVal → String
  | .vStr s => s
  | .vInt n => toString n
  | .vFloat r => r
  | .vBool b => if b then "true" else "false"
  | .vNull => "null"
  | .vUndef => "undefined"
  | .vArrObj _ => "[object]"
  | .vArrVal _ => "[array]"

/-- ASCII whitespace recognised by `String.prototype.trim`. -/
def jsIsWs (c : Char) : Bool :=
  c == ' ' || c == '\t' || c == '\n' || c == '\r' || c == '\x0b' || c == '\x0c'

/-- `trim` on a character list: drop whitespace from both ends. -/
def jsTrimList (l : List Char) : List Char :=
  ((l.dropWhile jsIsWs).reverse.dropWhile jsIsWs).reverse

/-- `String.prototype.trim`. -/
def jsTrim (s : String) : String :=
  String.mk (jsTrimList s.data)

/-- `String.prototype.toLowerCase` (ASCII). -/
def jsToLower (s : String) : String :=
  String.mk (s.data.map Char.toLower)

/-- Does the list begin with the given pattern? -/
def lstartsWith : List Char → List Char → Bool
  | _, [] => true
  | [], _ :: _ => false
  | c :: cs, p :: ps => c == p && lstartsWith cs ps

/-- `String.prototype.includes` on character lists: the pattern occurs
somewhere in the list. -/
def lcontains (pat : List Char) : List Char → Bool
  | [] => pat.isEmpty
  | c :: cs => lstartsWith (c :: cs) pat || lcontains pat cs

/-- `s.includes(pat)`. -/
def strContains (s pat : String) : Bool :=
  lcontains pat.data s.data

theorem lstartsWith_append (p r : List Char) : lstartsWith (p ++ r) p = true := by
  induction p with
  | nil =>
    cases r <;> rfl
  | cons c ps ih =>
    simp [lstartsWith, ih]

theorem lcontains_append (p x y : List Char) (hp : p ≠ []) :
    lcontains p (x ++ p ++ y) = true := by
  induction x with
  | nil =>
    cases hpat : p with
    | nil => exact absurd hpat hp
    | cons c ps =>
      have hs : lstartsWith (p ++ y) p = true := lstartsWith_append p y
      rw [hpat] at hs
      simp only [List.cons_append, List.append_eq] at hs
      simp only [List.nil_append, hpat, List.cons_append, lcontains, List.append_eq, hs,
        Bool.true_or]
  | cons d xs ih =>
    simp only [List.cons_append, List.append_eq] at ih ⊢
    simp only [lcontains, ih, Bool.or_true]

theorem dropWhile_append_nonws (a : List Char) (c : Char) (l : List Char)
    (hc : jsIsWs c = false) :
    List.dropWhile jsIsWs (a ++ c :: l) = List.dropWhile jsIsWs a ++ c :: l := by
  induction a with
  | nil =>
    simp [List.dropWhile, hc]
  | cons d as ih =>
    by_cases hd : jsIsWs d
    · simp [List.dropWhile_cons, hd, ih]
    · simp [List.dropWhile_cons, hd]

theorem jsTrimList_keeps (p x y : List Char) (c : Char) (cs : List Char)
    (hp : p = c :: cs) (hc : jsIsWs c = false)
    (d : Char) (ds : List Char) (hrev : p.reverse = d :: ds) (hd : jsIsWs d = false) :
    ∃ x1 y1, jsTrimList (x ++ p ++ y) = x1 ++ p ++ y1 := by
  have h1 : List.dropWhile jsIsWs (x ++ p ++ y) = List.dropWhile jsIsWs x ++ p ++ y := by
    subst hp
    have h := dropWhile_append_nonws x c (cs ++ y) hc
    simpa [List.append_assoc] using h
  refine ⟨List.dropWhile jsIsWs x, (List.dropWhile jsIsWs y.reverse).reverse, ?_⟩
  unfold jsTrimList
  rw [h1]
  have h2 : (List.dropWhile jsIsWs x ++ p ++ y).reverse
      = y.reverse ++ (d :: (ds ++ (List.dropWhile jsIsWs x).reverse)) := by
    simp [List.reverse_append, hrev, List.append_assoc]
  rw [h2, dropWhile_append_nonws _ d _ hd]
  have h3 : d :: (ds ++ (List.dropWhile jsIsWs x).reverse)
      = p.reverse ++ (List.dropWhile jsIsWs x).reverse := by
    simp [hrev]
  rw [h3]
  simp [List.reverse_append, List.append_assoc]

theorem strContains_trim_lower (a m b : String)
    (hm : jsToLower m = "sqlite_master") :
    strContains (jsTrim (jsToLower (a ++ m ++ b))) "sqlite_master" = true := by
  have hdata : (jsToLower (a ++ m ++ b)).data
      = a.data.map Char.toLower ++ "sqlite_master".data ++ b.data.map Char.toLower := by
    have hmd : m.data.map Char.toLower = "sqlite_master".data := congrArg String.data hm
    show ((a ++ m ++ b).data.map Char.toLower) =
      a.data.map Char.toLower ++ "sqlite_master".data ++ b.data.map Char.toLower
    have : (a ++ m ++ b).data = a.data ++ m.data ++ b.data := rfl
    rw [this, List.map_append, List.map_append, hmd]
  obtain ⟨x1, y1, hx⟩ := jsTrimList_keeps "sqlite_master".data
      (a.data.map Char.toLower) (b.data.map Char.toLower)
      's' "qlite_master".data rfl (by decide)
      'r' ("sqlite_maste".data).reverse (by decide) (by decide)
  show lcontains "sqlite_master".data (jsTrimList (jsToLower (a ++ m ++ b)).data) = true
  rw [hdata, hx]
  exact lcontains_append _ x1 y1 (by decide)

/-- A prepared statement: SQL text plus the ordered bound values. -/
structure Stmt where
  text : String
  values : List JsVal

/-- One observable step of a request: a log delegation or a store round trip.
`run` is `prepare(sql).bind(...).run()`, `all` is `...all()`, `batchExec` is
`db.batch(statements)` and `execRaw` is `db.exec(sql)`. -/
inductive Event where
  | log : String → Event
  | run : Stmt → Event
  | all : Stmt → Event
  | batchExec : List Stmt → Event
  | execRaw : String → Event

/-- Is the event a store round trip (as opposed to a log delegation)? -/
def Event.isStore : Event → Bool
  | .log _ => false
  | _ => true

/-- The store round trips of a trace, in order. -/
def storeEvents (es : List Event) : List Event :=
  es.filter Event.isStore

/-- The store adapter as an oracle: responses to each kind of round trip.
`changes` is the change count reported by `.run()`, `rows` the row set of
`.all()`, and `batch` the per-statement result list of `.batch()`. -/
structure Store where
  changes : Stmt → Nat
  rows : Stmt → List (List (String × JsVal))
  batch : List Stmt → List Unit

/-- The value a handler case returns (the JS `null` success, the various
result objects, or an error-message object). -/
inductive ApiResult where
  | okNull
  | okRows : List (List (String × JsVal)) → ApiResult
  | okDeleted : Nat → ApiResult
  | okInserted : Nat → ApiResult
  | okIndexed : String → ApiResult
  | okMessage : String → ApiResult
  | okExec : List (List (String × JsVal)) → ApiResult
  | okTables : Nat → List String → ApiResult
  | okIndices : List (List (String × JsVal)) → ApiResult
  | err : String → ApiResult

/-- Is the result an error-message object? -/
def ApiResult.isErr : ApiResult → Bool
  | .err _ => true
  | _ => false

/-- Outcome of `handleApiRequest`: the returned value plus the ordered trace
of log delegations and store round trips it performed. -/
structure HandlerOut where
  result : ApiResult
  events : List Event

/-- `FORBIDDEN_TABLES` (storage-engine-internal names). -/
def FORBIDDEN_TABLES : List String :=
  ["sqlite_master", "sqlite_schema", "sqlite_temp_master", "sqlite_sequence"]

/-- `allowedQueryOptions` (identical in both variants). -/
def allowedQueryOptions : List String :=
  ["minId", "offset", "order", "orderby", "limit", "table_name"]

/-- `resolveTableName`: trim `payload.table_name`, reject empty and
forbidden names.  A falsy `table_name` (absent, `""`, `null`, ...) yields
null; a truthy non-string throws a TypeError in the source, modelled here
as rejection. -/
def resolveTableName (p : Payload) : Option String :=
  match jsGet p "table_name" with
  | JsVal.vStr s =>
    if s == "" || jsTrim s == "" then none
    else if FORBIDDEN_TABLES.contains (jsTrim s) then none
    else some (jsTrim s)
  | _ => none

/-- The error object and log produced when `resolveTableName` fails. -/
def tableNameErr : HandlerOut :=
  ⟨.err "Invalid or missing table_name", [.log "Invalid or missing table_name"]⟩

/-- `Object.keys(payload).filter(k => k !== "table_name")`, shared by the
`post` and `delete` cases. -/
def writeKeys (payload : Payload) : List String :=
  (payload.map Prod.fst).filter (fun k => !(k == "table_name"))

/-- `Object.keys(payload).filter(k => k !== "table_name" && k !== "id")`
from the `put` case. -/
def putKeys (payload : Payload) : List String :=
  (payload.map Prod.fst).filter (fun k => !(k == "table_name") && !(k == "id"))

/-- The `get` case's `columnFilters`: keys of the payload (minus
`table_name`) that are not query options. -/
def getColumnFilters (payload : Payload) : List String :=
  ((payload.filter (fun kv => !(kv.1 == "table_name"))).map Prod.fst).filter
    (fun k => !(allowedQueryOptions.contains k))

/-- The `get` case's `LIMIT` value:
`Number.isInteger(limit) && limit > 0 ? Math.min(limit, 500) : 100`. -/
def getLimit (v : JsVal) : Int :=
  match v with
  | JsVal.vInt n => if 0 < n then min n 500 else 100
  | _ => 100

/-- The `post` case: whitelist check, then one INSERT built from the
payload's keys. -/
def postCase (cols : List String) (tableName : String) (payload : Payload)
    (store : Store) : HandlerOut :=
  let keys := writeKeys payload
  let invalidKeys := keys.filter (fun k => !(cols.contains k))
  if 0 < invalidKeys.length then
    ⟨.err ("Invalid columns: " ++ String.intercalate ", " invalidKeys), []⟩
  else
    let placeholders := String.intercalate "," (keys.map (fun _ => "?"))
    let sql := "INSERT INTO " ++ tableName ++ " (" ++ String.intercalate "," keys
      ++ ") VALUES (" ++ placeholders ++ ")"
    let st : Stmt := ⟨sql, keys.map (fun k => jsGet payload k)⟩
    let _ := store.changes st
    ⟨.okNull, [.run st]⟩

/-- The UPDATE statement the `put` case builds: a pure timestamp touch when
no field is supplied, otherwise `SET col = ?, ...` plus the `v2` refresh. -/
def putStmt (tableName : String) (payload : Payload) : Stmt :=
  let keysPut := putKeys payload
  if keysPut.length = 0 then
    ⟨"UPDATE " ++ tableName ++ " SET v2 = CURRENT_TIMESTAMP WHERE id = ?",
     [jsGet payload "id"]⟩
  else
    let setClause := String.intercalate ", " (keysPut.map (fun k => k ++ " = ?"))
    ⟨"UPDATE " ++ tableName ++ " SET " ++ setClause ++ ", v2 = CURRENT_TIMESTAMP WHERE id = ?",
     keysPut.map (fun k => jsGet payload k) ++ [jsGet payload "id"]⟩

/-- The `put` case: missing-id check, whitelist check, UPDATE keyed by `id`,
and a "Record not found" error when the store reports zero changes. -/
def putCase (cols : List String) (tableName : String) (payload : Payload)
    (store : Store) : HandlerOut :=
  if jsTruthy (jsGet payload "id") = false then
    ⟨.err "Missing 'id' for update", []⟩
  else
    let invalidKeys := (putKeys payload).filter (fun k => !(cols.contains k))
    if 0 < invalidKeys.length then
      ⟨.err ("Invalid columns: " ++ String.intercalate ", " invalidKeys), []⟩
    else
      let st := putStmt tableName payload
      if store.changes st = 0 then
        ⟨.err ("Record not found: id=" ++ jsToString (jsGet payload "id")), [.run st]⟩
      else
        ⟨.okNull, [.run st]⟩

/-- The `get` case's sort direction: `DESC` only on an explicit `desc`. -/
def getOrder (payload : Payload) : String :=
  let options := payload.filter (fun kv => !(kv.1 == "table_name"))
  if jsIsStrEq (jsGet options "order") "desc" then "DESC" else "ASC"

/-- The `get` case's sort column: `orderby` when whitelisted, else `id`. -/
def getOrderBy (cols : List String) (payload : Payload) : String :=
  let options := payload.filter (fun kv => !(kv.1 == "table_name"))
  match jsGet options "orderby" with
  | JsVal.vStr s => if cols.contains s then s else "id"
  | _ => "id"

/-- The `get` case's ordered bind values: equality-filter values, then the
`offset` or `minId` bound when present. -/
def getParams (_cols : List String) (payload : Payload) : List JsVal :=
  let options := payload.filter (fun kv => !(kv.1 == "table_name"))
  let filterParams := (getColumnFilters payload).map (fun k => jsGet options k)
  if jsNonNullish (jsGet options "offset") then filterParams ++ [jsGet options "offset"]
  else if jsNonNullish (jsGet options "minId") then filterParams ++ [jsGet options "minId"]
  else filterParams

/-- The `get` case's query before the LIMIT clause: `SELECT * FROM`, the
WHERE conditions (equality filters plus the exclusive pagination bound),
and ORDER BY, appended in the source's order. -/
def getQueryBase (cols : List String) (tableName : String) (payload : Payload) : String :=
  let options := payload.filter (fun kv => !(kv.1 == "table_name"))
  let columnFilters := getColumnFilters payload
  let order := getOrder payload
  let orderBy := getOrderBy cols payload
  let filterConds := columnFilters.map (fun k => k ++ " = ?")
  let boundCond := orderBy ++ " " ++ (if order == "ASC" then ">" else "<") ++ " ?"
  let conditions :=
    if jsNonNullish (jsGet options "offset") then filterConds ++ [boundCond]
    else if jsNonNullish (jsGet options "minId") then filterConds ++ [boundCond]
    else filterConds
  let query1 := "SELECT * FROM " ++ tableName
  let query2 :=
    if 0 < conditions.length then
      query1 ++ (" WHERE " ++ String.intercalate " AND " conditions)
    else query1
  query2 ++ (" ORDER BY " ++ orderBy ++ " " ++ order)

/-- The SELECT statement the `get` case builds: the base query with the
clamped LIMIT clause appended last, as the source does. -/
def getStmt (cols : List String) (tableName : String) (payload : Payload) : Stmt :=
  ⟨getQueryBase cols tableName payload ++
    (" LIMIT " ++ toString (getLimit
      (jsGet (payload.filter (fun kv => !(kv.1 == "table_name"))) "limit"))),
   getParams cols payload⟩

/-- The `get` case: filter-key whitelist check, the `minId`/`offset`
mutual-exclusion check, then one SELECT round trip. -/
def getCase (cols : List String) (tableName : String) (payload : Payload)
    (store : Store) : HandlerOut :=
  let options := payload.filter (fun kv => !(kv.1 == "table_name"))
  match (getColumnFilters payload).find? (fun k => !(cols.contains k)) with
  | some k => ⟨.err ("Invalid column in filters: " ++ k), []⟩
  | none =>
    if jsDefined (jsGet options "minId") && jsDefined (jsGet options "offset") then
      ⟨.err "Cannot use both 'minId' and 'offset' together.", []⟩
    else
      let st := getStmt cols tableName payload
      ⟨.okRows (store.rows st), [.all st]⟩

/-- The `delete` case: whitelist check; with no keys it is a wildcard DELETE
logged through the delegate before execution, otherwise an equality WHERE. -/
def deleteCase (cols : List String) (tableName : String) (payload : Payload)
    (store : Store) : HandlerOut :=
  let keys := writeKeys payload
  let invalidKeys := keys.filter (fun k => !(cols.contains k))
  if 0 < invalidKeys.length then
    ⟨.err ("Invalid columns: " ++ String.intercalate ", " invalidKeys), []⟩
  else if keys.length = 0 then
    let st : Stmt := ⟨"DELETE FROM " ++ tableName, []⟩
    ⟨.okDeleted (store.changes st), [.log ("DELETE ALL from " ++ tableName), .run st]⟩
  else
    let whereClause := String.intercalate " AND " (keys.map (fun k => k ++ " = ?"))
    let st : Stmt := ⟨"DELETE FROM " ++ tableName ++ " WHERE " ++ whereClause,
      keys.map (fun k => jsGet payload k)⟩
    ⟨.okDeleted (store.changes st), [.run st]⟩

/-- The `index` case (double-underscore index naming, `db.exec`, logged
after creation). -/
def indexCase (cols : List String) (tableName : String) (payload : Payload)
    (_store : Store) : HandlerOut :=
  match jsGet payload "column" with
  | JsVal.vStr c =>
    if c == "" then ⟨.err "Missing or invalid column for index", []⟩
    else if !(cols.contains c) || c == "id" then
      ⟨.err ("Index not allowed on column: " ++ c), []⟩
    else
      let indexName := "idx_" ++ tableName ++ "__" ++ c
      let sql := "CREATE INDEX IF NOT EXISTS " ++ indexName ++ " ON " ++ tableName
        ++ " (" ++ c ++ ")"
      ⟨.okIndexed c, [.execRaw sql, .log ("INDEX created: " ++ tableName ++ "." ++ c)]⟩
  | _ => ⟨.err "Missing or invalid column for index", []⟩

/-- The `exec` case: reject a missing query, reject any lowercased/trimmed
query containing a system-catalog reference, otherwise prepare it with the
optional bound params.  A truthy non-string query throws a TypeError in the
source (caught by the dispatcher); modelled as an error result. -/
def execCase (payload : Payload) (store : Store) : HandlerOut :=
  let query := jsGet payload "query"
  if jsTruthy query = false then ⟨.err "Missing SQL query", []⟩
  else
    match query with
    | JsVal.vStr q =>
      let lowerQuery := jsTrim (jsToLower q)
      if strContains lowerQuery "sqlite_master" || strContains lowerQuery "_cf_" then
        ⟨.err "Access to system tables via EXEC is forbidden.", []⟩
      else
        let st : Stmt :=
          match jsGet payload "params" with
          | JsVal.vArrVal ps => ⟨q, ps⟩
          | _ => ⟨q, []⟩
        ⟨.okExec (store.rows st), [.all st]⟩
    | _ => ⟨.err "query.toLowerCase is not a function", []⟩

/-- One INSERT of the `batch_post` case: the record's keys are filtered to
the whitelist (keys outside it are dropped, not rejected). -/
def batchInsertStmt (cols : List String) (tableName : String)
    (record : List (String × JsVal)) : Stmt :=
  let keys := (record.map Prod.fst).filter (fun k => cols.contains k)
  let placeholders := String.intercalate "," (keys.map (fun _ => "?"))
  ⟨"INSERT INTO " ++ tableName ++ " (" ++ String.intercalate "," keys
    ++ ") VALUES (" ++ placeholders ++ ")",
   keys.map (fun k => jsGet record k)⟩

/-- The `batch_post` case: map every record of `payload.data` to an INSERT
and submit them as one atomic batch; the reported count is the length of
the batch result list.  A scalar array element has no own keys. -/
def batchPostCase (cols : List String) (tableName : String) (payload : Payload)
    (store : Store) : HandlerOut :=
  match jsGet payload "data" with
  | JsVal.vArrObj records =>
    let statements := records.map (fun record => batchInsertStmt cols tableName record)
    let results := store.batch statements
    ⟨.okInserted results.length, [.batchExec statements]⟩
  | JsVal.vArrVal vs =>
    let statements := vs.map (fun _ => batchInsertStmt cols tableName [])
    let results := store.batch statements
    ⟨.okInserted results.length, [.batchExec statements]⟩
  | _ => ⟨.err "Payload 'data' must be an array", []⟩

/-- The `create_table` case (template-literal whitespace normalized): the
fixed schema, the optional UNIQUE on `c1`, the `c1` index when not unique,
the always-on `v2` index, all submitted as one batch. -/
def createTableCase (tableName : String) (payload : Payload)
    (store : Store) : HandlerOut :=
  let c1Unique := jsTruthy (jsGet payload "c1_unique")
  let c1Constraint := if c1Unique then "UNIQUE" else ""
  let tableSql := "CREATE TABLE IF NOT EXISTS " ++ tableName
    ++ " (id INTEGER PRIMARY KEY AUTOINCREMENT, c1 VARCHAR(255) " ++ c1Constraint
    ++ ", c2 VARCHAR(255), c3 VARCHAR(255), i1 INT, i2 INT, i3 INT,"
    ++ " d1 DOUBLE, d2 DOUBLE, d3 DOUBLE, t1 TEXT, t2 TEXT, t3 TEXT,"
    ++ " v1 TIMESTAMP DEFAULT CURRENT_TIMESTAMP, v2 TIMESTAMP DEFAULT CURRENT_TIMESTAMP,"
    ++ " v3 TIMESTAMP DEFAULT CURRENT_TIMESTAMP)"
  let base : List Stmt := [⟨tableSql, []⟩]
  let withC1 :=
    if !c1Unique then
      base ++ [⟨"CREATE INDEX IF NOT EXISTS idx_" ++ tableName ++ "_c1 ON " ++ tableName
        ++ "(c1)", []⟩]
    else base
  let statements := withC1 ++ [⟨"CREATE INDEX IF NOT EXISTS idx_" ++ tableName
    ++ "_v2 ON " ++ tableName ++ "(v2)", []⟩]
  let _ := store.batch statements
  ⟨.okMessage ("Table " ++ tableName ++ " is ready with indices on "
    ++ (if c1Unique then "v2" else "c1, v2") ++ "."),
   [.batchExec statements]⟩

/-- The `list_tables` case (template-literal whitespace normalized). -/
def listTablesCase (store : Store) : HandlerOut :=
  let query := "SELECT name FROM sqlite_master WHERE type='table'"
    ++ " AND name NOT LIKE 'sqlite_%' AND name NOT LIKE '_cf_%'"
  let st : Stmt := ⟨query, []⟩
  let tableNames := (store.rows st).map (fun row => jsToString (jsGet row "name"))
  ⟨.okTables tableNames.length tableNames, [.all st]⟩

/-- The `drop_table` case. -/
def dropTableCase (tableName : String) (store : Store) : HandlerOut :=
  if tableName == "" then ⟨.err "Invalid table name", []⟩
  else
    let st : Stmt := ⟨"DROP TABLE IF EXISTS " ++ tableName, []⟩
    let _ := store.changes st
    ⟨.okMessage ("Table " ++ tableName ++ " has been deleted."), [.run st]⟩

/-- The `create_index` case (single-underscore index naming, optional
UNIQUE). -/
def createIndexCase (cols : List String) (tableName : String) (payload : Payload)
    (store : Store) : HandlerOut :=
  let col := jsGet payload "column"
  let isUnique := jsTruthy (jsGet payload "unique")
  match col with
  | JsVal.vStr c =>
    if c == "" || !(cols.contains c) then
      ⟨.err ("Invalid or missing column: " ++ jsToString col), []⟩
    else
      let indexName := "idx_" ++ tableName ++ "_" ++ c
      let uniqueStr := if isUnique then "UNIQUE" else ""
      let st : Stmt := ⟨"CREATE " ++ uniqueStr ++ " INDEX IF NOT EXISTS " ++ indexName
        ++ " ON " ++ tableName ++ " (" ++ c ++ ")", []⟩
      let _ := store.changes st
      ⟨.okMessage ("Index " ++ indexName ++ " created."), [.run st]⟩
  | _ => ⟨.err ("Invalid or missing column: " ++ jsToString col), []⟩

/-- The `list_indices` case. -/
def listIndicesCase (tableName : String) (store : Store) : HandlerOut :=
  let st : Stmt := ⟨"PRAGMA index_list(" ++ tableName ++ ")", []⟩
  ⟨.okIndices (store.rows st), [.all st]⟩

/-- The `drop_index` case. -/
def dropIndexCase (tableName : String) (payload : Payload)
    (store : Store) : HandlerOut :=
  let col := jsGet payload "column"
  if jsTruthy col = false then ⟨.err "Missing column name to drop index", []⟩
  else
    let indexName := "idx_" ++ tableName ++ "_" ++ jsToString col
    let st : Stmt := ⟨"DROP INDEX IF EXISTS " ++ indexName, []⟩
    let _ := store.changes st
    ⟨.okMessage ("Index " ++ indexName ++ " dropped."), [.run st]⟩

namespace Core

/-- `allowedColumns` of `src/index.js` (no `id`). -/
def allowedColumns : List String :=
  ["c1", "c2", "c3", "i1", "i2", "i3", "d1", "d2", "d3", "t1", "t2", "t3",
   "v1", "v2", "v3"]

/-- The `src/index.js` action switch, after table-name resolution. -/
def dispatch (action : String) (tableName : String) (payload : Payload)
    (store : Store) : HandlerOut :=
  match action with
  | "post" => postCase allowedColumns tableName payload store
  | "put" => putCase allowedColumns tableName payload store
  | "get" => getCase allowedColumns tableName payload store
  | "delete" => deleteCase allowedColumns tableName payload store
  | "index" => indexCase allowedColumns tableName payload store
  | _ => ⟨.err ("Unknown action: " ++ action), []⟩

/-- `handleApiRequest` of `src/index.js`. -/
def handleApiRequest (action : String) (payload : Payload)
    (store : Store) : HandlerOut :=
  match resolveTableName payload with
  | none => tableNameErr
  | some tableName => dispatch action tableName payload store

end Core

namespace Rack

/-- `allowedColumns` of the `usage.md` variant (includes `id`). -/
def allowedColumns : List String :=
  ["id", "c1", "c2", "c3", "i1", "i2", "i3", "d1", "d2", "d3", "t1", "t2", "t3",
   "v1", "v2", "v3"]

/-- The `usage.md` variant's action switch, after table-name resolution. -/
def dispatch (action : String) (tableName : String) (payload : Payload)
    (store : Store) : HandlerOut :=
  match action with
  | "exec" => execCase payload store
  | "create_table" => createTableCase tableName payload store
  | "list_tables" => listTablesCase store
  | "batch_post" => batchPostCase allowedColumns tableName payload store
  | "drop_table" => dropTableCase tableName store
  | "create_index" => createIndexCase allowedColumns tableName payload store
  | "list_indices" => listIndicesCase tableName store
  | "drop_index" => dropIndexCase tableName payload store
  | "post" => postCase allowedColumns tableName payload store
  | "put" => putCase allowedColumns tableName payload store
  | "get" => getCase allowedColumns tableName payload store
  | "delete" => deleteCase allowedColumns tableName payload store
  | "index" => indexCase allowedColumns tableName payload store
  | _ => ⟨.err ("Unknown action: " ++ action), []⟩

/-- `handleApiRequest` of the `usage.md` variant. -/
def handleApiRequest (action : String) (payload : Payload)
    (store : Store) : HandlerOut :=
  match resolveTableName payload with
  | none => tableNameErr
  | some tableName => dispatch action tableName payload store

end Rack

/-- A store oracle reporting one change per mutation and empty row sets,
with the adapter-contract batch behaviour (one result per statement). -/
def testStore : Store :=
  ⟨fun _ => 1, fun _ => [], fun ss => ss.map (fun _ => ())⟩

/-- A store oracle reporting zero changes (no row matches). -/
def zeroStore : Store :=
  ⟨fun _ => 0, fun _ => [], fun ss => ss.map (fun _ => ())⟩

theorem jsLookup_filter_table_name (l : Payload) (k : String)
    (hk : (k == "table_name") = false) :
    jsLookup (l.filter (fun kv => !(kv.1 == "table_name"))) k = jsLookup l k := by
  induction l with
  | nil => rfl
  | cons kv rest ih =>
    obtain ⟨a, v⟩ := kv
    cases h1 : (a == "table_name") with
    | true =>
      have ha : a = "table_name" := by simpa using h1
      have hne : (a == k) = false := by
        cases hak : (a == k) with
        | false => rfl
        | true =>
          have heq : a = k := by simpa using hak
          rw [← heq, ha] at hk
          simp at hk
      rw [List.filter_cons_of_neg (by simp [h1])]
      rw [ih]
      show jsLookup rest k = jsLookup ((a, v) :: rest) k
      rw [jsLookup, hne]
      simp
    | false =>
      rw [List.filter_cons_of_pos (by simp [h1])]
      show jsLookup ((a, v) :: (rest.filter (fun kv => !(kv.1 == "table_name")))) k
        = jsLookup ((a, v) :: rest) k
      rw [jsLookup, jsLookup]
      cases h2 : (a == k) with
      | true => simp
      | false => simpa using ih

theorem jsGet_filter_table_name (l : Payload) (k : String)
    (hk : (k == "table_name") = false) :
    jsGet (l.filter (fun kv => !(kv.1 == "table_name"))) k = jsGet l k := by
  unfold jsGet
  rw [jsLookup_filter_table_name l k hk]

theorem Core.dispatch_post (t : String) (payload : Payload) (store : Store) :
    Core.dispatch "post" t payload store = postCase Core.allowedColumns t payload store := rfl

theorem Core.dispatch_put (t : String) (payload : Payload) (store : Store) :
    Core.dispatch "put" t payload store = putCase Core.allowedColumns t payload store := rfl

theorem Core.dispatch_get (t : String) (payload : Payload) (store : Store) :
    Core.dispatch "get" t payload store = getCase Core.allowedColumns t payload store := rfl

theorem Core.dispatch_delete (t : String) (payload : Payload) (store : Store) :
    Core.dispatch "delete" t payload store = deleteCase Core.allowedColumns t payload store := rfl

theorem Rack.dispatch_exec (t : String) (payload : Payload) (store : Store) :
    Rack.dispatch "exec" t payload store = execCase payload store := rfl

theorem Rack.dispatch_batch_post (t : String) (payload : Payload) (store : Store) :
    Rack.dispatch "batch_post" t payload store =
      batchPostCase Rack.allowedColumns t payload store := rfl

/-- C4: `resolveTableName` returns null for an absent `table_name`, for a
string that trims to empty (empty or whitespace-only), and for a string
whose trimmed form is in the reserved storage-engine-internal set; for
every other string it returns the name with surrounding whitespace
trimmed. -/
theorem claim_c4 (p : Payload) (s : String) :
    (jsLookup p "table_name" = none → resolveTableName p = none) ∧
    (jsLookup p "table_name" = some (JsVal.vStr s) → jsTrim s = "" →
      resolveTableName p = none) ∧
    (jsLookup p "table_name" = some (JsVal.vStr s) →
      FORBIDDEN_TABLES.contains (jsTrim s) = true → resolveTableName p = none) ∧
    (jsLookup p "table_name" = some (JsVal.vStr s) → jsTrim s ≠ "" →
      FORBIDDEN_TABLES.contains (jsTrim s) = false →
      resolveTableName p = some (jsTrim s)) := by
  refine ⟨?_, ?_, ?_, ?_⟩
  · intro h
    unfold resolveTableName jsGet
    rw [h]
    rfl
  · intro h htrim
    unfold resolveTableName jsGet
    rw [h]
    simp [htrim]
  · intro h hforb
    unfold resolveTableName jsGet
    rw [h]
    simp only [Option.getD_some]
    by_cases hc : (s == "" || jsTrim s == "") = true
    · rw [if_pos hc]
    · rw [if_neg hc, if_pos hforb]
  · intro h htrim hforb
    unfold resolveTableName jsGet
    rw [h]
    simp only [Option.getD_some]
    have hs : (s == "") = false := by
      cases hse : (s == "") with
      | false => rfl
      | true =>
        have hse' : s = "" := by simpa using hse
        subst hse'
        exact absurd rfl htrim
    have ht : (jsTrim s == "") = false := by simpa using htrim
    have h1 : ¬((s == "" || jsTrim s == "") = true) := by
      rw [hs, ht]
      simp
    have h2 : ¬(FORBIDDEN_TABLES.contains (jsTrim s) = true) := by
      rw [hforb]
      simp
    rw [if_neg h1, if_neg h2]

/-- C4 witness: a name with surrounding whitespace is accepted and trimmed;
the reserved name `sqlite_master` and a whitespace-only name are rejected. -/
theorem claim_c4_witness :
    resolveTableName [("table_name", JsVal.vStr "  users ")] = some "users" ∧
    resolveTableName [("table_name", JsVal.vStr "   ")] = none ∧
    resolveTableName [("table_name", JsVal.vStr "sqlite_master")] = none ∧
    resolveTableName [] = none := by
  refine ⟨?_, ?_, ?_, ?_⟩
  · exact (claim_c4 [("table_name", JsVal.vStr "  users ")] "  users ").2.2.2
      rfl (by decide) (by decide)
  · exact (claim_c4 [("table_name", JsVal.vStr "   ")] "   ").2.1 rfl (by decide)
  · exact (claim_c4 [("table_name", JsVal.vStr "sqlite_master")] "sqlite_master").2.2.1
      rfl (by decide)
  · exact (claim_c4 [] "").1 rfl

/-- C9: every action — `exec` and `list_tables` included — first requires
`payload.table_name` to resolve; when it does not (absent, empty,
whitespace-only or forbidden), both handler variants return the
"Invalid or missing table_name" error, only log, and never reach the
store; no action string is exempt. -/
theorem claim_c9 (action : String) (payload : Payload) (store : Store)
    (hres : resolveTableName payload = none) :
    Rack.handleApiRequest action payload store =
      ⟨ApiResult.err "Invalid or missing table_name",
       [Event.log "Invalid or missing table_name"]⟩ ∧
    Core.handleApiRequest action payload store =
      ⟨ApiResult.err "Invalid or missing table_name",
       [Event.log "Invalid or missing table_name"]⟩ ∧
    storeEvents (Rack.handleApiRequest action payload store).events = [] := by
  unfold Rack.handleApiRequest Core.handleApiRequest
  rw [hres]
  exact ⟨rfl, rfl, rfl⟩

/-- The documented `exec` usage example: the payload carries only `query`
and `params`, no `table_name`. -/
def docExecPayload : Payload :=
  [("query", JsVal.vStr
      "SELECT c1, AVG(i1) FROM sensor_logs GROUP BY c1 HAVING AVG(i1) > ?"),
   ("params", JsVal.vArrVal [JsVal.vInt 50])]

/-- C9 witness: the documented `exec` example payload (and a `list_tables`
payload without `table_name`) are rejected with the table-name error and no
store call. -/
theorem claim_c9_witness :
    Rack.handleApiRequest "exec" docExecPayload testStore =
      ⟨ApiResult.err "Invalid or missing table_name",
       [Event.log "Invalid or missing table_name"]⟩ ∧
    Rack.handleApiRequest "list_tables" docExecPayload testStore =
      ⟨ApiResult.err "Invalid or missing table_name",
       [Event.log "Invalid or missing table_name"]⟩ ∧
    storeEvents (Rack.handleApiRequest "exec" docExecPayload testStore).events = [] := by
  have h1 := claim_c9 "exec" docExecPayload testStore rfl
  have h2 := claim_c9 "list_tables" docExecPayload testStore rfl
  exact ⟨h1.1, h2.1, h1.2.2⟩

/-- C10: a `put` whose `id` is present but falsy (the number 0, the empty
string, ...) is rejected with the "Missing 'id' for update" error before
any store call, so id 0 can never be updated or touched. -/
theorem claim_c10 (payload : Payload) (store : Store) (t : String) (v : JsVal)
    (hres : resolveTableName payload = some t)
    (hv : jsLookup payload "id" = some v) (hfalsy : jsTruthy v = false) :
    Core.handleApiRequest "put" payload store =
      ⟨ApiResult.err "Missing 'id' for update", []⟩ := by
  unfold Core.handleApiRequest
  rw [hres]
  show putCase Core.allowedColumns t payload store = _
  unfold putCase
  have hget : jsGet payload "id" = v := by simp [jsGet, hv]
  rw [hget, hfalsy]
  rfl

/-- C10 witness: `id = 0` is rejected as missing. -/
theorem claim_c10_witness :
    Core.handleApiRequest "put"
        [("table_name", JsVal.vStr "t"), ("id", JsVal.vInt 0)] testStore =
      ⟨ApiResult.err "Missing 'id' for update", []⟩ := by
  exact claim_c10 [("table_name", JsVal.vStr "t"), ("id", JsVal.vInt 0)] testStore
    "t" (JsVal.vInt 0) rfl rfl rfl

/-- C8: a `delete` whose payload has no keys besides `table_name` builds a
wildcard `DELETE FROM <table>` with no WHERE clause, and the logging
delegate is invoked with the destructive-wildcard message before the
statement is executed. -/
theorem claim_c8 (payload : Payload) (store : Store) (t : String)
    (hres : resolveTableName payload = some t)
    (hkeys : writeKeys payload = []) :
    Core.handleApiRequest "delete" payload store =
      ⟨ApiResult.okDeleted (store.changes ⟨"DELETE FROM " ++ t, []⟩),
       [Event.log ("DELETE ALL from " ++ t),
        Event.run ⟨"DELETE FROM " ++ t, []⟩]⟩ := by
  unfold Core.handleApiRequest
  rw [hres]
  show deleteCase Core.allowedColumns t payload store = _
  unfold deleteCase
  rw [hkeys]
  rfl

/-- C8 witness: a payload carrying only `table_name`. -/
theorem claim_c8_witness :
    Core.handleApiRequest "delete" [("table_name", JsVal.vStr "t")] testStore =
      ⟨ApiResult.okDeleted 1,
       [Event.log "DELETE ALL from t", Event.run ⟨"DELETE FROM t", []⟩]⟩ := by
  exact claim_c8 [("table_name", JsVal.vStr "t")] testStore "t" rfl rfl

theorem postCase_rejects (cols : List String) (t : String) (payload : Payload)
    (store : Store) (k : String) (hk : k ∈ writeKeys payload)
    (hbad : cols.contains k = false) :
    (postCase cols t payload store).result.isErr = true ∧
    (postCase cols t payload store).events = [] := by
  have hmem : k ∈ (writeKeys payload).filter (fun x => !(cols.contains x)) :=
    List.mem_filter.mpr ⟨hk, by rw [hbad]; rfl⟩
  have hpos : 0 < ((writeKeys payload).filter (fun x => !(cols.contains x))).length :=
    List.length_pos.mpr (List.ne_nil_of_mem hmem)
  simp only [postCase]
  rw [if_pos hpos]
  exact ⟨rfl, rfl⟩

theorem putCase_rejects (cols : List String) (t : String) (payload : Payload)
    (store : Store) (k : String) (hk : k ∈ putKeys payload)
    (hbad : cols.contains k = false) :
    (putCase cols t payload store).result.isErr = true ∧
    (putCase cols t payload store).events = [] := by
  simp only [putCase]
  by_cases hid : jsTruthy (jsGet payload "id") = false
  · rw [if_pos hid]
    exact ⟨rfl, rfl⟩
  · rw [if_neg hid]
    have hmem : k ∈ (putKeys payload).filter (fun x => !(cols.contains x)) :=
      List.mem_filter.mpr ⟨hk, by rw [hbad]; rfl⟩
    have hpos : 0 < ((putKeys payload).filter (fun x => !(cols.contains x))).length :=
      List.length_pos.mpr (List.ne_nil_of_mem hmem)
    rw [if_pos hpos]
    exact ⟨rfl, rfl⟩

theorem deleteCase_rejects (cols : List String) (t : String) (payload : Payload)
    (store : Store) (k : String) (hk : k ∈ writeKeys payload)
    (hbad : cols.contains k = false) :
    (deleteCase cols t payload store).result.isErr = true ∧
    (deleteCase cols t payload store).events = [] := by
  have hmem : k ∈ (writeKeys payload).filter (fun x => !(cols.contains x)) :=
    List.mem_filter.mpr ⟨hk, by rw [hbad]; rfl⟩
  have hpos : 0 < ((writeKeys payload).filter (fun x => !(cols.contains x))).length :=
    List.length_pos.mpr (List.ne_nil_of_mem hmem)
  simp only [deleteCase]
  rw [if_pos hpos]
  exact ⟨rfl, rfl⟩

theorem getCase_rejects (cols : List String) (t : String) (payload : Payload)
    (store : Store) (k : String) (hk : k ∈ getColumnFilters payload)
    (hbad : cols.contains k = false) :
    (getCase cols t payload store).result.isErr = true ∧
    (getCase cols t payload store).events = [] := by
  have hsome : ((getColumnFilters payload).find? (fun x => !(cols.contains x))).isSome :=
    List.find?_isSome.mpr ⟨k, hk, by rw [hbad]; rfl⟩
  simp only [getCase]
  cases hf : (getColumnFilters payload).find? (fun x => !(cols.contains x)) with
  | none =>
    rw [hf] at hsome
    simp at hsome
  | some bad => exact ⟨rfl, rfl⟩

/-- C2: a `post`, `put`, `delete` or `get` payload containing any key —
beyond `table_name`, beyond `id` for `put`, and beyond the query-option
names for `get` — that is outside the column whitelist is rejected with a
validation error and no store round trip is performed (fail-closed). -/
theorem claim_c2 (payload : Payload) (store : Store) (k : String)
    (hbad : Core.allowedColumns.contains k = false) :
    ((k ∈ writeKeys payload) →
      (Core.handleApiRequest "post" payload store).result.isErr = true ∧
      storeEvents (Core.handleApiRequest "post" payload store).events = []) ∧
    ((k ∈ putKeys payload) →
      (Core.handleApiRequest "put" payload store).result.isErr = true ∧
      storeEvents (Core.handleApiRequest "put" payload store).events = []) ∧
    ((k ∈ writeKeys payload) →
      (Core.handleApiRequest "delete" payload store).result.isErr = true ∧
      storeEvents (Core.handleApiRequest "delete" payload store).events = []) ∧
    ((k ∈ getColumnFilters payload) →
      (Core.handleApiRequest "get" payload store).result.isErr = true ∧
      storeEvents (Core.handleApiRequest "get" payload store).events = []) := by
  refine ⟨?_, ?_, ?_, ?_⟩
  · intro hk
    unfold Core.handleApiRequest
    cases hres : resolveTableName payload with
    | none => exact ⟨rfl, rfl⟩
    | some t =>
      show (postCase Core.allowedColumns t payload store).result.isErr = true ∧
        storeEvents (postCase Core.allowedColumns t payload store).events = []
      have h := postCase_rejects Core.allowedColumns t payload store k hk hbad
      exact ⟨h.1, by rw [h.2]; rfl⟩
  · intro hk
    unfold Core.handleApiRequest
    cases hres : resolveTableName payload with
    | none => exact ⟨rfl, rfl⟩
    | some t =>
      show (putCase Core.allowedColumns t payload store).result.isErr = true ∧
        storeEvents (putCase Core.allowedColumns t payload store).events = []
      have h := putCase_rejects Core.allowedColumns t payload store k hk hbad
      exact ⟨h.1, by rw [h.2]; rfl⟩
  · intro hk
    unfold Core.handleApiRequest
    cases hres : resolveTableName payload with
    | none => exact ⟨rfl, rfl⟩
    | some t =>
      show (deleteCase Core.allowedColumns t payload store).result.isErr = true ∧
        storeEvents (deleteCase Core.allowedColumns t payload store).events = []
      have h := deleteCase_rejects Core.allowedColumns t payload store k hk hbad
      exact ⟨h.1, by rw [h.2]; rfl⟩
  · intro hk
    unfold Core.handleApiRequest
    cases hres : resolveTableName payload with
    | none => exact ⟨rfl, rfl⟩
    | some t =>
      show (getCase Core.allowedColumns t payload store).result.isErr = true ∧
        storeEvents (getCase Core.allowedColumns t payload store).events = []
      have h := getCase_rejects Core.allowedColumns t payload store k hk hbad
      exact ⟨h.1, by rw [h.2]; rfl⟩

/-- C2 witness: a payload with the non-whitelisted key `hack` is rejected
by all four actions with no store call. -/
theorem claim_c2_witness :
    ((Core.handleApiRequest "post"
        [("table_name", JsVal.vStr "t"), ("hack", JsVal.vInt 1)]
        testStore).result.isErr = true ∧
      storeEvents (Core.handleApiRequest "post"
        [("table_name", JsVal.vStr "t"), ("hack", JsVal.vInt 1)]
        testStore).events = []) ∧
    ((Core.handleApiRequest "put"
        [("table_name", JsVal.vStr "t"), ("hack", JsVal.vInt 1)]
        testStore).result.isErr = true ∧
      storeEvents (Core.handleApiRequest "put"
        [("table_name", JsVal.vStr "t"), ("hack", JsVal.vInt 1)]
        testStore).events = []) ∧
    ((Core.handleApiRequest "delete"
        [("table_name", JsVal.vStr "t"), ("hack", JsVal.vInt 1)]
        testStore).result.isErr = true ∧
      storeEvents (Core.handleApiRequest "delete"
        [("table_name", JsVal.vStr "t"), ("hack", JsVal.vInt 1)]
        testStore).events = []) ∧
    ((Core.handleApiRequest "get"
        [("table_name", JsVal.vStr "t"), ("hack", JsVal.vInt 1)]
        testStore).result.isErr = true ∧
      storeEvents (Core.handleApiRequest "get"
        [("table_name", JsVal.vStr "t"), ("hack", JsVal.vInt 1)]
        testStore).events = []) := by
  have h := claim_c2 [("table_name", JsVal.vStr "t"), ("hack", JsVal.vInt 1)]
    testStore "hack" (by decide)
  exact ⟨h.1 (by decide), h.2.1 (by decide), h.2.2.1 (by decide), h.2.2.2 (by decide)⟩

/-- C6: a `get` whose payload defines both `minId` and `offset` is rejected
with a validation error before any SQL is built and the store is never
called. -/
theorem claim_c6 (payload : Payload) (store : Store)
    (hmin : jsDefined (jsGet payload "minId") = true)
    (hoff : jsDefined (jsGet payload "offset") = true) :
    (Core.handleApiRequest "get" payload store).result.isErr = true ∧
    storeEvents (Core.handleApiRequest "get" payload store).events = [] := by
  unfold Core.handleApiRequest
  cases hres : resolveTableName payload with
  | none => exact ⟨rfl, rfl⟩
  | some t =>
    show (getCase Core.allowedColumns t payload store).result.isErr = true ∧
      storeEvents (getCase Core.allowedColumns t payload store).events = []
    simp only [getCase]
    cases hf : (getColumnFilters payload).find?
        (fun x => !(Core.allowedColumns.contains x)) with
    | some bad => exact ⟨rfl, rfl⟩
    | none =>
      have hmin' : jsDefined (jsGet (payload.filter
          (fun kv => !(kv.1 == "table_name"))) "minId") = true := by
        rw [jsGet_filter_table_name _ _ (by decide)]
        exact hmin
      have hoff' : jsDefined (jsGet (payload.filter
          (fun kv => !(kv.1 == "table_name"))) "offset") = true := by
        rw [jsGet_filter_table_name _ _ (by decide)]
        exact hoff
      have hcond : (jsDefined (jsGet (payload.filter
            (fun kv => !(kv.1 == "table_name"))) "minId")
          && jsDefined (jsGet (payload.filter
            (fun kv => !(kv.1 == "table_name"))) "offset")) = true := by
        rw [hmin', hoff']
        rfl
      rw [if_pos hcond]
      exact ⟨rfl, rfl⟩

/-- C6 witness: `minId = 5` together with `offset = 3` is rejected with no
store call. -/
theorem claim_c6_witness :
    (Core.handleApiRequest "get"
      [("table_name", JsVal.vStr "t"), ("minId", JsVal.vInt 5),
       ("offset", JsVal.vInt 3)] testStore).result.isErr = true ∧
    storeEvents (Core.handleApiRequest "get"
      [("table_name", JsVal.vStr "t"), ("minId", JsVal.vInt 5),
       ("offset", JsVal.vInt 3)] testStore).events = [] := by
  exact claim_c6 [("table_name", JsVal.vStr "t"), ("minId", JsVal.vInt 5),
    ("offset", JsVal.vInt 3)] testStore rfl rfl

/-- C5: for every `get` that passes validation, the executed SELECT's text
ends with a LIMIT clause equal to `min(limit, 500)` when `payload.limit` is
a positive integer, and `100` when `limit` is absent, zero, negative or not
an integer. -/
theorem claim_c5 (payload : Payload) (store : Store) (t : String)
    (hres : resolveTableName payload = some t)
    (hval : ∀ x ∈ getColumnFilters payload, Core.allowedColumns.contains x = true)
    (hpag : (jsDefined (jsGet payload "minId")
        && jsDefined (jsGet payload "offset")) = false) :
    (Core.handleApiRequest "get" payload store).events =
      [Event.all (getStmt Core.allowedColumns t payload)] ∧
    (∃ pre, (getStmt Core.allowedColumns t payload).text =
      pre ++ (" LIMIT " ++ toString (getLimit (jsGet payload "limit")))) ∧
    (∀ n : Int, jsGet payload "limit" = JsVal.vInt n → 0 < n →
      getLimit (jsGet payload "limit") = min n 500) ∧
    ((∀ n : Int, jsGet payload "limit" = JsVal.vInt n → n ≤ 0) →
      getLimit (jsGet payload "limit") = 100) := by
  have hl : jsGet (payload.filter (fun kv => !(kv.1 == "table_name"))) "limit"
      = jsGet payload "limit" := jsGet_filter_table_name _ _ (by decide)
  refine ⟨?_, ?_, ?_, ?_⟩
  · unfold Core.handleApiRequest
    rw [hres]
    show (getCase Core.allowedColumns t payload store).events = _
    simp only [getCase]
    cases hf : (getColumnFilters payload).find?
        (fun x => !(Core.allowedColumns.contains x)) with
    | some bad =>
      have hnone : (getColumnFilters payload).find?
          (fun x => !(Core.allowedColumns.contains x)) = none :=
        List.find?_eq_none.mpr (fun x hx => by rw [hval x hx]; simp)
      rw [hf] at hnone
      cases hnone
    | none =>
      have hcond : (jsDefined (jsGet (payload.filter
            (fun kv => !(kv.1 == "table_name"))) "minId")
          && jsDefined (jsGet (payload.filter
            (fun kv => !(kv.1 == "table_name"))) "offset")) = false := by
        rw [jsGet_filter_table_name _ _ (by decide),
          jsGet_filter_table_name _ _ (by decide)]
        exact hpag
      rw [if_neg (by rw [hcond]; simp)]
  · refine ⟨getQueryBase Core.allowedColumns t payload, ?_⟩
    show getQueryBase Core.allowedColumns t payload ++
      (" LIMIT " ++ toString (getLimit
        (jsGet (payload.filter (fun kv => !(kv.1 == "table_name"))) "limit"))) = _
    rw [hl]
  · intro n hn hpos
    rw [hn]
    simp only [getLimit]
    rw [if_pos hpos]
  · intro h
    cases hv : jsGet payload "limit" with
    | vInt n =>
      have hn := h n hv
      simp only [getLimit]
      rw [if_neg (by omega)]
    | vStr s => rfl
    | vFloat r => rfl
    | vBool b => rfl
    | vNull => rfl
    | vUndef => rfl
    | vArrObj rs => rfl
    | vArrVal vs => rfl

/-- C5 witness: `limit = 10000` yields `LIMIT 500`; an absent limit yields
`LIMIT 100`. -/
theorem claim_c5_witness :
    (Core.handleApiRequest "get"
      [("table_name", JsVal.vStr "t"), ("limit", JsVal.vInt 10000)]
      testStore).events =
      [Event.all (getStmt Core.allowedColumns "t"
        [("table_name", JsVal.vStr "t"), ("limit", JsVal.vInt 10000)])] ∧
    getLimit (jsGet [("table_name", JsVal.vStr "t"),
      ("limit", JsVal.vInt 10000)] "limit") = 500 ∧
    (getStmt Core.allowedColumns "t"
      [("table_name", JsVal.vStr "t"), ("limit", JsVal.vInt 10000)]).text =
      "SELECT * FROM t ORDER BY id ASC LIMIT 500" ∧
    getLimit (jsGet [("table_name", JsVal.vStr "t")] "limit") = 100 := by
  have h := claim_c5 [("table_name", JsVal.vStr "t"), ("limit", JsVal.vInt 10000)]
    testStore "t" rfl (by decide) (by decide)
  refine ⟨h.1, ?_, rfl, ?_⟩
  · have h3 := h.2.2.1 10000 rfl (by decide)
    rw [h3]
    decide
  · have h0 := claim_c5 [("table_name", JsVal.vStr "t")] testStore "t" rfl
      (by decide) (by decide)
    exact h0.2.2.2 (fun n hn => by cases hn)

/-- C7: a `put` carrying a truthy `id` and only whitelisted fields performs
exactly one UPDATE; with no fields beyond `table_name` and `id` that UPDATE
is the pure `v2 = CURRENT_TIMESTAMP` touch; zero reported changes yields
the "Record not found" error, a nonzero count yields success. -/
theorem claim_c7 (payload : Payload) (store : Store) (t : String) (v : JsVal)
    (hres : resolveTableName payload = some t)
    (hid : jsLookup payload "id" = some v) (htr : jsTruthy v = true)
    (hkeys : ∀ x ∈ putKeys payload, Core.allowedColumns.contains x = true) :
    (Core.handleApiRequest "put" payload store).events =
      [Event.run (putStmt t payload)] ∧
    (store.changes (putStmt t payload) = 0 →
      (Core.handleApiRequest "put" payload store).result =
        ApiResult.err ("Record not found: id=" ++ jsToString v)) ∧
    (store.changes (putStmt t payload) ≠ 0 →
      (Core.handleApiRequest "put" payload store).result = ApiResult.okNull) ∧
    (putKeys payload = [] →
      putStmt t payload =
        ⟨"UPDATE " ++ t ++ " SET v2 = CURRENT_TIMESTAMP WHERE id = ?", [v]⟩) := by
  have hget : jsGet payload "id" = v := by simp [jsGet, hid]
  have hfil : (putKeys payload).filter (fun x => !(Core.allowedColumns.contains x)) = [] :=
    List.filter_eq_nil_iff.mpr (fun x hx => by rw [hkeys x hx]; simp)
  have hstep : Core.handleApiRequest "put" payload store =
      (if store.changes (putStmt t payload) = 0 then
        ⟨.err ("Record not found: id=" ++ jsToString v),
         [.run (putStmt t payload)]⟩
      else ⟨.okNull, [.run (putStmt t payload)]⟩) := by
    unfold Core.handleApiRequest
    rw [hres]
    show putCase Core.allowedColumns t payload store = _
    simp only [putCase]
    rw [hget, htr]
    rw [if_neg (by simp)]
    rw [hfil]
    rw [if_neg (by simp)]
  refine ⟨?_, ?_, ?_, ?_⟩
  · by_cases h0 : store.changes (putStmt t payload) = 0
    · rw [hstep, if_pos h0]
    · rw [hstep, if_neg h0]
  · intro h0
    rw [hstep, if_pos h0]
  · intro h0
    rw [hstep, if_neg h0]
  · intro hnil
    unfold putStmt
    rw [hnil, hget]
    rfl

/-- C7 witness: a touch-only `put` on a store reporting zero changes builds
the pure timestamp refresh and reports "Record not found". -/
theorem claim_c7_witness :
    (Core.handleApiRequest "put"
      [("table_name", JsVal.vStr "t"), ("id", JsVal.vInt 7)] zeroStore).events =
      [Event.run ⟨"UPDATE t SET v2 = CURRENT_TIMESTAMP WHERE id = ?",
        [JsVal.vInt 7]⟩] ∧
    (Core.handleApiRequest "put"
      [("table_name", JsVal.vStr "t"), ("id", JsVal.vInt 7)] zeroStore).result =
      ApiResult.err "Record not found: id=7" := by
  have h := claim_c7 [("table_name", JsVal.vStr "t"), ("id", JsVal.vInt 7)]
    zeroStore "t" (JsVal.vInt 7) rfl rfl rfl (by decide)
  constructor
  · rw [h.1]
    rfl
  · exact h.2.1 rfl

/-- C3: an `exec` whose query text contains, anywhere, a substring that is
`sqlite_master` up to letter case (surrounding whitespace immaterial) is
answered with an error and the statement is never prepared or executed
against the store. -/
theorem claim_c3 (payload : Payload) (store : Store) (a m b : String)
    (hq : jsLookup payload "query" = some (JsVal.vStr (a ++ m ++ b)))
    (hm : jsToLower m = "sqlite_master") :
    (Rack.handleApiRequest "exec" payload store).result.isErr = true ∧
    storeEvents (Rack.handleApiRequest "exec" payload store).events = [] := by
  unfold Rack.handleApiRequest
  cases hres : resolveTableName payload with
  | none => exact ⟨rfl, rfl⟩
  | some t =>
    show (execCase payload store).result.isErr = true ∧
      storeEvents (execCase payload store).events = []
    have hget : jsGet payload "query" = JsVal.vStr (a ++ m ++ b) := by
      simp [jsGet, hq]
    have hmlen : m.data.length = 13 := by
      have hc := congrArg String.data hm
      have hlen := congrArg List.length hc
      simpa [jsToLower] using hlen
    have hne : ((a ++ m ++ b) == "") = false := by
      cases he : ((a ++ m ++ b) == "") with
      | false => rfl
      | true =>
        have heq : (a ++ m ++ b) = "" := by simpa using he
        have hd : a.data ++ m.data ++ b.data = ([] : List Char) :=
          congrArg String.data heq
        have := congrArg List.length hd
        simp [List.length_append, hmlen] at this
    have hblk := strContains_trim_lower a m b hm
    simp only [execCase]
    rw [hget]
    have htr : jsTruthy (JsVal.vStr (a ++ m ++ b)) = true := by
      simp [jsTruthy, hne]
    rw [htr]
    rw [if_neg (by simp)]
    simp only []
    rw [hblk]
    rw [if_pos (by simp)]
    exact ⟨rfl, rfl⟩

/-- C3 witness: a mixed-case catalog reference with surrounding whitespace
is rejected without any store call. -/
theorem claim_c3_witness :
    (Rack.handleApiRequest "exec"
      [("table_name", JsVal.vStr "x"),
       ("query", JsVal.vStr "  SELECT * FROM SQLite_Master  ")]
      testStore).result.isErr = true ∧
    storeEvents (Rack.handleApiRequest "exec"
      [("table_name", JsVal.vStr "x"),
       ("query", JsVal.vStr "  SELECT * FROM SQLite_Master  ")]
      testStore).events = [] := by
  exact claim_c3 [("table_name", JsVal.vStr "x"),
      ("query", JsVal.vStr "  SELECT * FROM SQLite_Master  ")]
    testStore "  SELECT * FROM " "SQLite_Master" "  " rfl (by decide)

/-- A `batch_post` payload whose single record carries the non-whitelisted
key `hack` alongside the whitelisted `c1`. -/
def c1Payload : Payload :=
  [("table_name", JsVal.vStr "sensor_logs"),
   ("data", JsVal.vArrObj
     [[("c1", JsVal.vStr "device_A"), ("hack", JsVal.vInt 1)]])]

/-- C1 counterexample: a batch whose record contains a key outside the
whitelist is NOT rejected — the handler reports success (`inserted: 1`),
the batch reaches the store, and the offending key is silently dropped
from the built INSERT. -/
theorem claim_c1_counterexample :
    (Rack.handleApiRequest "batch_post" c1Payload testStore).result =
      ApiResult.okInserted 1 ∧
    (Rack.handleApiRequest "batch_post" c1Payload testStore).result.isErr = false ∧
    (Rack.handleApiRequest "batch_post" c1Payload testStore).events =
      [Event.batchExec [⟨"INSERT INTO sensor_logs (c1) VALUES (?)",
        [JsVal.vStr "device_A"]⟩]] := by
  exact ⟨rfl, rfl, rfl⟩

/-- C1 (amended): keys outside the whitelist are silently dropped from each
record rather than rejected; for every `batch_post` whose `data` is an
array of N records — valid or not — exactly N INSERT statements, each
restricted to its record's whitelisted keys, are submitted as one atomic
batch, and the reported inserted count equals N (given the adapter
contract of one batch result per statement). -/
theorem claim_c1_amended (payload : Payload) (store : Store) (t : String)
    (records : List (List (String × JsVal)))
    (hres : resolveTableName payload = some t)
    (hdata : jsLookup payload "data" = some (JsVal.vArrObj records))
    (hbatch : ∀ ss, (store.batch ss).length = ss.length) :
    Rack.handleApiRequest "batch_post" payload store =
      ⟨ApiResult.okInserted records.length,
       [Event.batchExec (records.map
         (fun r => batchInsertStmt Rack.allowedColumns t r))]⟩ ∧
    (records.map (fun r => batchInsertStmt Rack.allowedColumns t r)).length
      = records.length := by
  have hget : jsGet payload "data" = JsVal.vArrObj records := by
    simp [jsGet, hdata]
  constructor
  · unfold Rack.handleApiRequest
    rw [hres]
    show batchPostCase Rack.allowedColumns t payload store = _
    simp only [batchPostCase]
    rw [hget]
    simp only []
    rw [hbatch, List.length_map]
  · exact List.length_map _ _

/-- C1 amended witness: two valid records yield two INSERTs in one batch
and `inserted = 2`. -/
theorem claim_c1_amended_witness :
    Rack.handleApiRequest "batch_post"
      [("table_name", JsVal.vStr "sensor_logs"),
       ("data", JsVal.vArrObj
         [[("c1", JsVal.vStr "device_A"), ("i1", JsVal.vInt 42)],
          [("c1", JsVal.vStr "device_B"), ("i1", JsVal.vInt 99)]])]
      testStore =
      ⟨ApiResult.okInserted 2,
       [Event.batchExec
         [⟨"INSERT INTO sensor_logs (c1,i1) VALUES (?,?)",
           [JsVal.vStr "device_A", JsVal.vInt 42]⟩,
          ⟨"INSERT INTO sensor_logs (c1,i1) VALUES (?,?)",
           [JsVal.vStr "device_B", JsVal.vInt 99]⟩]]⟩ := by
  have h := claim_c1_amended
    [("table_name", JsVal.vStr "sensor_logs"),
     ("data", JsVal.vArrObj
       [[("c1", JsVal.vStr "device_A"), ("i1", JsVal.vInt 42)],
        [("c1", JsVal.vStr "device_B"), ("i1", JsVal.vInt 99)]])]
    testStore "sensor_logs"
    [[("c1", JsVal.vStr "device_A"), ("i1", JsVal.vInt 42)],
     [("c1", JsVal.vStr "device_B"), ("i1", JsVal.vInt 99)]]
    rfl rfl (fun ss => by simp [testStore])
  rw [h.1]
  rfl
